import Mathlib

/-!
Verification of the stream-ingestion and state-reconciliation engine of the
options-flow viewer (the `OptionsFlowClient` component).

The engine is shallowly embedded: JavaScript numbers are modelled as exact
rationals (`ℚ`), possibly-absent fields as `Option ℚ`, the keyed overlays
(`quotes`, `ulQuotes`, `conidMapping` — plain JS objects keyed by conid) as
functions `Nat → Option _`, and the `ws.onmessage` switch as a pure state
transformer `processMsg`.  The reconnection logic (`ws.onclose`,
`ws.onerror`, `setTimeout(connectWebSocket, 3000)` and the effect cleanup)
is embedded as a small labelled transition function `connStep`.
-/

/-- An option or underlying quote message (`LIVE_QUOTE` / `UL_LIVE_QUOTE`
payload).  The handler stores the whole payload and only reads `conid` and
`last`; `last`, `bid`, `ask`, `volume`, `timestamp` may be absent. -/
structure Quote where
  conid : Nat
  last : Option ℚ
  bid : Option ℚ := none
  ask : Option ℚ := none
  volume : Option ℚ := none
  timestamp : Option ℚ := none
deriving DecidableEq, Repr

/-- Payload of a `CALL` / `PUT` trade-summary message (the fields the
ingestion logic reads or that the spec lists as required). -/
structure TradeEvent where
  conid : Nat
  underlyingConid : Nat
  optionPrice : ℚ
  size : ℚ
  premium : ℚ
  direction : String
  timestamp : ℚ
  isAutoTrade : Bool
deriving DecidableEq, Repr

/-- A trade-ledger record: the `CALL`/`PUT` payload spread together with the
fields added by the handler (`receivedAt`, `initialPrice`, `currentPrice`,
`priceChange`, `priceChangePct`).  `currentPrice` is kept optional because
the enrichment code guards it with a nullish-coalescing fallback. -/
structure TradeSummary where
  conid : Nat
  underlyingConid : Nat
  optionPrice : ℚ
  size : ℚ
  premium : ℚ
  direction : String
  timestamp : ℚ
  isAutoTrade : Bool
  receivedAt : ℚ
  initialPrice : ℚ
  currentPrice : Option ℚ
  priceChange : ℚ
  priceChangePct : ℚ
deriving DecidableEq, Repr

/-- A `PRINT` message payload, stored in the print ledger unchanged. -/
structure PrintRec where
  conid : Nat
  symbol : String
  right : String
  strike : ℚ
  expiry : String
  tradeSize : ℚ
  tradePrice : ℚ
  premium : ℚ
  aggressor : Bool
  timestamp : ℚ
deriving DecidableEq, Repr

/-- Instrument metadata stored in `conidMapping` (`CONID_MAPPING` payload).
The source stores the mapping object with fields `symbol`, `type` (its
instrument class, `"OPT"` or `"UNDERLYING"`) and optional option data. -/
structure Mapping where
  symbol : String
  type : String
  right : Option String := none
  strike : Option ℚ := none
  expiry : Option String := none
deriving DecidableEq, Repr

/-- The `TRADING_STATS` payload, replaced wholesale into `stats`. -/
structure Stats where
  dailyDate : Option String := none
  dailyPnl : Option ℚ := none
  dailyTrades : Option ℚ := none
  dailyWins : Option ℚ := none
  dailyLosses : Option ℚ := none
  totalPnL : Option ℚ := none
  openPositionsCount : Option ℚ := none
  openPnL : Option ℚ := none
  totalTrades : Option ℚ := none
  simulation : Bool := false
deriving DecidableEq, Repr

/-- A decoded inbound message, discriminated by its `type` field.  `unknown`
stands for any unrecognized discriminant (the switch's default arm). -/
inductive Msg where
  | conidMapping (conid : Nat) (mapping : Mapping)
  | call (e : TradeEvent)
  | put (e : TradeEvent)
  | print (p : PrintRec)
  | liveQuote (q : Quote)
  | ulLiveQuote (q : Quote)
  | tradingStats (st : Stats)
  | unknown
deriving DecidableEq, Repr

/-- The in-memory session state held in the component's `useState` hooks
(the rendering-only pieces `activeTab` and `filters` are out of scope). -/
structure ClientState where
  connected : Bool
  trades : List TradeSummary
  prints : List PrintRec
  quotes : Nat → Option Quote
  ulQuotes : Nat → Option Quote
  conidMapping : Nat → Option Mapping
  stats : Option Stats
  autoTrades : List TradeSummary

/-- Initial state of all `useState` hooks: empty ledgers, empty overlays,
no stats, not connected. -/
def initState : ClientState where
  connected := false
  trades := []
  prints := []
  quotes := fun _ => none
  ulQuotes := fun _ => none
  conidMapping := fun _ => none
  stats := none
  autoTrades := []

/-- Bounded-ledger push: `[record, ...prev].slice(0, cap)` — prepend, then
truncate to at most `cap` entries. -/
def push {α : Type} (cap : Nat) (x : α) (l : List α) : List α :=
  (x :: l).take cap

/-- `data.last ?? t.currentPrice ?? t.optionPrice`: the price used by the
enrichment step — the quote's last, falling back to the record's prior
current price, then to its entry option price. -/
def resolveLast (qlast : Option ℚ) (t : TradeSummary) : ℚ :=
  match qlast with
  | some l => l
  | none =>
    match t.currentPrice with
    | some c => c
    | none => t.optionPrice

/-- The body of the `prev.map` callback in the `LIVE_QUOTE` case: records
of another conid are returned unchanged; a matching record gets new
`currentPrice`, `priceChange`, `priceChangePct` (the percentage guarded by
the truthiness of `t.initialPrice`, i.e. zero entry price gives 0). -/
def updateTrade (q : Quote) (t : TradeSummary) : TradeSummary :=
  if t.conid ≠ q.conid then t
  else
    let last := resolveLast q.last t
    let priceChange := last - t.initialPrice
    let priceChangePct := if t.initialPrice ≠ 0 then priceChange / t.initialPrice * 100 else 0
    { t with
      currentPrice := some last
      priceChange := priceChange
      priceChangePct := priceChangePct }

/-- The record built in the `CALL`/`PUT` case: the payload spread plus
`receivedAt = Date.now()`, `initialPrice = currentPrice = optionPrice`,
zero `priceChange` and `priceChangePct`. -/
def mkTradeSummary (now : ℚ) (e : TradeEvent) : TradeSummary where
  conid := e.conid
  underlyingConid := e.underlyingConid
  optionPrice := e.optionPrice
  size := e.size
  premium := e.premium
  direction := e.direction
  timestamp := e.timestamp
  isAutoTrade := e.isAutoTrade
  receivedAt := now
  initialPrice := e.optionPrice
  currentPrice := some e.optionPrice
  priceChange := 0
  priceChangePct := 0

/-- The `switch (data.type)` dispatch of `ws.onmessage`, one case per
discriminant; `now` stands for `Date.now()` at receipt time. -/
def processMsg (now : ℚ) (m : Msg) (s : ClientState) : ClientState :=
  match m with
  | .conidMapping conid mapping =>
    { s with conidMapping := fun c => if c = conid then some mapping else s.conidMapping c }
  | .call e | .put e =>
    let enriched := mkTradeSummary now e
    let s1 := { s with trades := push 200 enriched s.trades }
    if e.isAutoTrade then
      { s1 with autoTrades := push 50 enriched s1.autoTrades }
    else s1
  | .print p =>
    { s with prints := push 200 p s.prints }
  | .liveQuote q =>
    { s with
      quotes := fun c => if c = q.conid then some q else s.quotes c
      trades := s.trades.map (updateTrade q)
      autoTrades := s.autoTrades.map (updateTrade q) }
  | .ulLiveQuote q =>
    { s with ulQuotes := fun c => if c = q.conid then some q else s.ulQuotes c }
  | .tradingStats st =>
    { s with stats := some st }
  | .unknown => s

/-- A raw inbound WebSocket payload: `JSON.parse(event.data)` either yields
structured data (here already classified as a `Msg`) or throws on a
malformed payload. -/
inductive Payload where
  | decodable (m : Msg)
  | malformed
deriving DecidableEq, Repr

/-- The `ws.onmessage` handler on a raw payload: a malformed payload makes
`JSON.parse` throw before any state update (`Except.error`), otherwise the
decoded message is dispatched. -/
def onmessage (now : ℚ) (p : Payload) (s : ClientState) : Except Unit ClientState :=
  match p with
  | .malformed => Except.error ()
  | .decodable m => Except.ok (processMsg now m s)

/-- Browser event-loop delivery of a sequence of timestamped payloads: each
message is handled to completion before the next; an exception escaping the
`onmessage` handler is reported to the console but does not remove the
handler or stop delivery, so the state is left as it was and the next
message is processed normally. -/
def dispatchLoop (evts : List (ℚ × Payload)) (s : ClientState) : ClientState :=
  match evts with
  | [] => s
  | (now, p) :: rest =>
    dispatchLoop rest
      (match onmessage now p s with
       | Except.ok s2 => s2
       | Except.error _ => s)

/-- `getMapping`: overlay lookup with the default placeholder
`{ symbol: 'Unknown', type: 'OPT' }` for an absent conid. -/
def getMapping (s : ClientState) (conid : Nat) : Mapping :=
  (s.conidMapping conid).getD { symbol := "Unknown", type := "OPT" }

/- ===================== Connection manager model ===================== -/

/-- Environment events driving the connection lifecycle. -/
inductive ConnEvent where
  /-- the mount effect runs `connectWebSocket()` -/
  | mount
  /-- `ws.onopen` fires -/
  | openEvt
  /-- `ws.onclose` fires (graceful or abnormal close, including the close
  completing after a `ws.close()` call) -/
  | closeEvt
  /-- `ws.onerror` fires -/
  | errorEvt
  /-- a scheduled `setTimeout(connectWebSocket, 3000)` timer fires -/
  | timerFire
  /-- the owning session ends: the effect cleanup runs
  `if (wsRef.current) wsRef.current.close()` -/
  | teardown
deriving DecidableEq, Repr

/-- Observable connection-manager state: the `connected` flag, whether a
(live) socket exists, the delays of the pending `setTimeout` reconnection
timers, how many connection attempts (`new WebSocket(...)`) were made, and
whether the owning session has been torn down. -/
structure ConnState where
  connected : Bool
  hasSocket : Bool
  pendingTimers : List Nat
  connectCount : Nat
  tornDown : Bool
deriving DecidableEq, Repr

/-- The literal delay passed to `setTimeout` in `ws.onclose`. -/
def reconnectDelayMs : Nat := 3000

/-- State before the component mounts. -/
def connInit : ConnState where
  connected := false
  hasSocket := false
  pendingTimers := []
  connectCount := 0
  tornDown := false

/-- One step of the connection manager, read off the handlers:
`connectWebSocket` (run at mount and when a timer fires) constructs a new
socket; `onopen` sets `connected`; `onclose` clears `connected` and
schedules one reconnection timer with the fixed delay; `onerror` only
clears `connected`; the cleanup calls `close()` on the current socket but
holds no timer handle — the source contains no `clearTimeout` — so
`pendingTimers` is untouched by teardown. -/
def connStep (s : ConnState) (e : ConnEvent) : ConnState :=
  match e with
  | .mount => { s with connectCount := s.connectCount + 1, hasSocket := true }
  | .openEvt => { s with connected := true }
  | .closeEvt =>
    { s with
      connected := false
      hasSocket := false
      pendingTimers := s.pendingTimers ++ [reconnectDelayMs] }
  | .errorEvt => { s with connected := false }
  | .timerFire =>
    match s.pendingTimers with
    | [] => s
    | _ :: rest =>
      { s with pendingTimers := rest, connectCount := s.connectCount + 1, hasSocket := true }
  | .teardown => { s with tornDown := true }

/- ===================== Theorems ===================== -/

/-- Field values of `updateTrade` on a record whose conid matches the
quote's. -/
theorem updateTrade_match (q : Quote) (t : TradeSummary) (h : t.conid = q.conid) :
    (updateTrade q t).currentPrice = some (resolveLast q.last t) ∧
    (updateTrade q t).priceChange = resolveLast q.last t - t.initialPrice ∧
    (updateTrade q t).priceChangePct =
      (if t.initialPrice ≠ 0
       then (resolveLast q.last t - t.initialPrice) / t.initialPrice * 100
       else 0) := by
  simp [updateTrade, h]

/-- A record of a different conid passes through `updateTrade` unchanged. -/
theorem updateTrade_nonmatch (q : Quote) (t : TradeSummary) (h : t.conid ≠ q.conid) :
    updateTrade q t = t := by
  simp [updateTrade, h]

/-- `updateTrade` only ever touches `currentPrice`, `priceChange` and
`priceChangePct`; every other field survives unchanged. -/
theorem updateTrade_frame (q : Quote) (t : TradeSummary) :
    (updateTrade q t).conid = t.conid ∧
    (updateTrade q t).underlyingConid = t.underlyingConid ∧
    (updateTrade q t).optionPrice = t.optionPrice ∧
    (updateTrade q t).size = t.size ∧
    (updateTrade q t).premium = t.premium ∧
    (updateTrade q t).direction = t.direction ∧
    (updateTrade q t).timestamp = t.timestamp ∧
    (updateTrade q t).isAutoTrade = t.isAutoTrade ∧
    (updateTrade q t).receivedAt = t.receivedAt ∧
    (updateTrade q t).initialPrice = t.initialPrice := by
  by_cases h : t.conid ≠ q.conid
  · simp [updateTrade, h]
  · push_neg at h
    simp [updateTrade, h]

/-- C6: `push` prepends the record so it is at index 0 right after the push
(for a positive capacity), never fails (it is total), and on a full ledger
a push removes exactly the oldest (last) record, keeping all other records
unchanged in arrival order. -/
theorem push_spec {α : Type} (cap : Nat) (x : α) (l : List α) (hcap : 0 < cap) :
    (push cap x l).head? = some x ∧
    (l.length = cap → push cap x l = x :: l.dropLast) := by
  obtain ⟨n, rfl⟩ : ∃ n, cap = n + 1 := ⟨cap - 1, (Nat.succ_pred_eq_of_pos hcap).symm⟩
  constructor
  · simp [push]
  · intro hlen
    simp only [push, List.take_succ_cons]
    rw [List.dropLast_eq_take, hlen]
    simp

/-- Witness for C6 at capacity 2: pushing onto the full ledger `[1, 2]`
puts 10 at index 0 and evicts exactly the oldest record 2. -/
theorem push_spec_witness :
    (push 2 (10 : Nat) [1, 2]).head? = some 10 ∧ push 2 (10 : Nat) [1, 2] = 10 :: [1, 2].dropLast :=
  ⟨(push_spec 2 10 [1, 2] (by decide)).1, (push_spec 2 10 [1, 2] (by decide)).2 (by decide)⟩

/-- C8: looking up a conid absent from the identifier directory returns the
default placeholder — symbol `"Unknown"` with the option instrument class
(written `type: 'OPT'` in the source) — and `getMapping` is total, so it
never fails or throws. -/
theorem getMapping_default (s : ClientState) (conid : Nat)
    (h : s.conidMapping conid = none) :
    getMapping s conid =
      { symbol := "Unknown", type := "OPT", right := none, strike := none, expiry := none } := by
  simp [getMapping, h]

/-- Witness for C8: conid 100 is absent from the initial directory and
looks up to the default placeholder. -/
theorem getMapping_default_witness :
    getMapping initState 100 =
      { symbol := "Unknown", type := "OPT", right := none, strike := none, expiry := none } :=
  getMapping_default initState 100 rfl

/-- All three ledgers are within their capacities. -/
def ledgersBounded (s : ClientState) : Prop :=
  s.trades.length ≤ 200 ∧ s.prints.length ≤ 200 ∧ s.autoTrades.length ≤ 50

theorem push_length_le {α : Type} (cap : Nat) (x : α) (l : List α) :
    (push cap x l).length ≤ cap := by
  simp [push]

theorem processMsg_bounded (now : ℚ) (m : Msg) (s : ClientState)
    (h : ledgersBounded s) : ledgersBounded (processMsg now m s) := by
  obtain ⟨h1, h2, h3⟩ := h
  cases m with
  | conidMapping conid mapping => exact ⟨h1, h2, h3⟩
  | call e =>
    by_cases ha : e.isAutoTrade <;>
      simp [processMsg, ledgersBounded, ha, push_length_le, h2, h3]
  | put e =>
    by_cases ha : e.isAutoTrade <;>
      simp [processMsg, ledgersBounded, ha, push_length_le, h2, h3]
  | print p => exact ⟨h1, push_length_le 200 p s.prints, h3⟩
  | liveQuote q =>
    refine ⟨?_, h2, ?_⟩ <;> simpa [processMsg]
  | ulLiveQuote q => exact ⟨h1, h2, h3⟩
  | tradingStats st => exact ⟨h1, h2, h3⟩
  | unknown => exact ⟨h1, h2, h3⟩

theorem dispatchLoop_bounded (evts : List (ℚ × Payload)) (s : ClientState)
    (h : ledgersBounded s) : ledgersBounded (dispatchLoop evts s) := by
  induction evts generalizing s with
  | nil => exact h
  | cons ev rest ih =>
    obtain ⟨now, p⟩ := ev
    cases p with
    | malformed => exact ih s h
    | decodable m => exact ih (processMsg now m s) (processMsg_bounded now m s h)

/-- C1: after the dispatch handler processes any sequence of inbound
messages (well-formed or malformed) from the initial state, the trade
ledger holds at most 200 records, the print ledger at most 200, and the
auto-trade ledger at most 50. -/
theorem ledger_bounds (evts : List (ℚ × Payload)) :
    (dispatchLoop evts initState).trades.length ≤ 200 ∧
    (dispatchLoop evts initState).prints.length ≤ 200 ∧
    (dispatchLoop evts initState).autoTrades.length ≤ 50 :=
  dispatchLoop_bounded evts initState ⟨by simp [initState], by simp [initState], by simp [initState]⟩

/-- C3: a malformed payload throws inside `JSON.parse` before any state
update, so it leaves the whole session state unchanged, and the dispatch
loop still processes all subsequent messages exactly as it would have
without the malformed message. -/
theorem malformed_is_dropped (now : ℚ) (s : ClientState) (rest : List (ℚ × Payload)) :
    dispatchLoop ((now, Payload.malformed) :: rest) s = dispatchLoop rest s ∧
    dispatchLoop [(now, Payload.malformed)] s = s :=
  ⟨rfl, rfl⟩

theorem resolveLast_updateTrade (q : Quote) (t : TradeSummary) :
    resolveLast q.last (updateTrade q t) = resolveLast q.last t := by
  unfold updateTrade
  by_cases h : t.conid ≠ q.conid
  · simp [h]
  · cases hq : q.last <;> simp [h, hq, resolveLast]

theorem updateTrade_idem (q : Quote) (t : TradeSummary) :
    updateTrade q (updateTrade q t) = updateTrade q t := by
  by_cases h : t.conid ≠ q.conid
  · simp [updateTrade, h]
  · push_neg at h
    cases hq : q.last <;> simp [updateTrade, resolveLast, h, hq]

/-- C7: a `CALL` or `PUT` event pushes a record initialized with
`currentPrice = initialPrice = optionPrice`, `priceChange = 0`,
`priceChangePct = 0`; the very same record is also pushed to the
auto-trade ledger when the event carries the auto-trade flag, and the
auto-trade ledger is untouched when it does not (and `PUT` behaves exactly
as `CALL`). -/
theorem callput_record_init (now : ℚ) (e : TradeEvent) (s : ClientState) :
    ∃ r : TradeSummary,
      (processMsg now (Msg.call e) s).trades.head? = some r ∧
      r.currentPrice = some e.optionPrice ∧
      r.initialPrice = e.optionPrice ∧
      r.priceChange = 0 ∧
      r.priceChangePct = 0 ∧
      (e.isAutoTrade = true → (processMsg now (Msg.call e) s).autoTrades.head? = some r) ∧
      (e.isAutoTrade = false → (processMsg now (Msg.call e) s).autoTrades = s.autoTrades) ∧
      processMsg now (Msg.put e) s = processMsg now (Msg.call e) s := by
  refine ⟨mkTradeSummary now e, ?_, rfl, rfl, rfl, rfl, ?_, ?_, rfl⟩
  · cases ha : e.isAutoTrade <;> simp [processMsg, push, ha]
  · intro ha; simp [processMsg, push, ha]
  · intro ha; simp [processMsg, ha]

/-- Concrete auto-flagged `CALL` event used to witness C7. -/
def eC7 : TradeEvent where
  conid := 7
  underlyingConid := 1
  optionPrice := 5/4
  size := 3
  premium := 375
  direction := "BTO"
  timestamp := 0
  isAutoTrade := true

/-- Witness for C7 at a concrete auto-flagged event. -/
theorem callput_record_init_witness :
    ∃ r : TradeSummary,
      (processMsg 0 (Msg.call eC7) initState).trades.head? = some r ∧
      r.currentPrice = some eC7.optionPrice ∧
      r.initialPrice = eC7.optionPrice ∧
      r.priceChange = 0 ∧
      r.priceChangePct = 0 ∧
      (processMsg 0 (Msg.call eC7) initState).autoTrades.head? = some r := by
  obtain ⟨r, h1, h2, h3, h4, h5, h6, -, -⟩ := callput_record_init 0 eC7 initState
  exact ⟨r, h1, h2, h3, h4, h5, h6 rfl⟩

/-- Concrete `CALL` event with entry price 1.50 and size 10 for conid 100
(the C2 scenario). -/
def eC2 : TradeEvent where
  conid := 100
  underlyingConid := 2
  optionPrice := 3/2
  size := 10
  premium := 1500
  direction := "BTO"
  timestamp := 0
  isAutoTrade := false

/-- Concrete `LIVE_QUOTE` for conid 100 with last 2.00 (the C2 scenario). -/
def qC2 : Quote where
  conid := 100
  last := some 2

/-- C2: a `LIVE_QUOTE` for conid `k` updates every matching record of the
trade and auto-trade ledgers to `currentPrice = L`,
`priceChange = L - initialPrice` and
`priceChangePct = priceChange / initialPrice * 100` (0 on a zero entry
price), where `L` is the quote's last price falling back to the record's
prior current price and then to its entry option price; in particular a
`CALL` at 1.50 followed by a quote with last 2.00 for the same conid
yields `currentPrice = 2` and `priceChangePct = 100/3 ≈ 33.33`. -/
theorem liveQuote_enrichment :
    (∀ (now : ℚ) (q : Quote) (s : ClientState) (i : Nat) (hi : i < s.trades.length),
      (s.trades.get ⟨i, hi⟩).conid = q.conid →
      ∃ h2 : i < (processMsg now (Msg.liveQuote q) s).trades.length,
        ((processMsg now (Msg.liveQuote q) s).trades.get ⟨i, h2⟩).currentPrice
            = some (resolveLast q.last (s.trades.get ⟨i, hi⟩)) ∧
        ((processMsg now (Msg.liveQuote q) s).trades.get ⟨i, h2⟩).priceChange
            = resolveLast q.last (s.trades.get ⟨i, hi⟩) - (s.trades.get ⟨i, hi⟩).initialPrice ∧
        ((processMsg now (Msg.liveQuote q) s).trades.get ⟨i, h2⟩).priceChangePct
            = (if (s.trades.get ⟨i, hi⟩).initialPrice ≠ 0
               then (resolveLast q.last (s.trades.get ⟨i, hi⟩) - (s.trades.get ⟨i, hi⟩).initialPrice)
                      / (s.trades.get ⟨i, hi⟩).initialPrice * 100
               else 0)) ∧
    (∀ (now : ℚ) (q : Quote) (s : ClientState) (i : Nat) (hi : i < s.autoTrades.length),
      (s.autoTrades.get ⟨i, hi⟩).conid = q.conid →
      ∃ h2 : i < (processMsg now (Msg.liveQuote q) s).autoTrades.length,
        ((processMsg now (Msg.liveQuote q) s).autoTrades.get ⟨i, h2⟩).currentPrice
            = some (resolveLast q.last (s.autoTrades.get ⟨i, hi⟩)) ∧
        ((processMsg now (Msg.liveQuote q) s).autoTrades.get ⟨i, h2⟩).priceChange
            = resolveLast q.last (s.autoTrades.get ⟨i, hi⟩) - (s.autoTrades.get ⟨i, hi⟩).initialPrice ∧
        ((processMsg now (Msg.liveQuote q) s).autoTrades.get ⟨i, h2⟩).priceChangePct
            = (if (s.autoTrades.get ⟨i, hi⟩).initialPrice ≠ 0
               then (resolveLast q.last (s.autoTrades.get ⟨i, hi⟩) - (s.autoTrades.get ⟨i, hi⟩).initialPrice)
                      / (s.autoTrades.get ⟨i, hi⟩).initialPrice * 100
               else 0)) ∧
    ((processMsg 1 (Msg.liveQuote qC2) (processMsg 0 (Msg.call eC2) initState)).trades.head?.map
        TradeSummary.currentPrice = some (some 2) ∧
     (processMsg 1 (Msg.liveQuote qC2) (processMsg 0 (Msg.call eC2) initState)).trades.head?.map
        TradeSummary.priceChangePct = some (100 / 3)) := by
  refine ⟨?_, ?_, by decide, ?_⟩
  · intro now q s i hi hc
    have hlen : i < (processMsg now (Msg.liveQuote q) s).trades.length := by
      simpa [processMsg] using hi
    have hget : (processMsg now (Msg.liveQuote q) s).trades.get ⟨i, hlen⟩
        = updateTrade q (s.trades.get ⟨i, hi⟩) := by
      simp [processMsg]
    exact ⟨hlen, by rw [hget]; exact updateTrade_match q _ hc⟩
  · intro now q s i hi hc
    have hlen : i < (processMsg now (Msg.liveQuote q) s).autoTrades.length := by
      simpa [processMsg] using hi
    have hget : (processMsg now (Msg.liveQuote q) s).autoTrades.get ⟨i, hlen⟩
        = updateTrade q (s.autoTrades.get ⟨i, hi⟩) := by
      simp [processMsg]
    exact ⟨hlen, by rw [hget]; exact updateTrade_match q _ hc⟩
  · have hstep : (processMsg 1 (Msg.liveQuote qC2) (processMsg 0 (Msg.call eC2) initState)).trades
        = [updateTrade qC2 (mkTradeSummary 0 eC2)] := rfl
    rw [hstep]
    show some (updateTrade qC2 (mkTradeSummary 0 eC2)).priceChangePct = some (100 / 3)
    norm_num [updateTrade, mkTradeSummary, resolveLast, eC2, qC2]

/-- Witness for C2: the scenario state has one matching trade at index 0;
applying the enrichment theorem there gives `currentPrice = 2` and
`priceChangePct = 100/3`. -/
theorem liveQuote_enrichment_witness :
    ∃ h2 : 0 < (processMsg 1 (Msg.liveQuote qC2) (processMsg 0 (Msg.call eC2) initState)).trades.length,
      ((processMsg 1 (Msg.liveQuote qC2) (processMsg 0 (Msg.call eC2) initState)).trades.get
          ⟨0, h2⟩).currentPrice = some 2 ∧
      ((processMsg 1 (Msg.liveQuote qC2) (processMsg 0 (Msg.call eC2) initState)).trades.get
          ⟨0, h2⟩).priceChangePct = 100 / 3 := by
  obtain ⟨h2, hcp, hpc, hpct⟩ :=
    liveQuote_enrichment.1 1 qC2 (processMsg 0 (Msg.call eC2) initState) 0 (by decide) (by decide)
  refine ⟨h2, ?_, ?_⟩
  · rw [hcp]; decide
  · rw [hpct]
    have ht : (processMsg 0 (Msg.call eC2) initState).trades.get ⟨0, by decide⟩
        = mkTradeSummary 0 eC2 := rfl
    rw [ht]
    norm_num [mkTradeSummary, resolveLast, eC2, qC2]

/-- Concrete `CALL` for conid 7 (used to witness C9's frame property). -/
def eC9 : TradeEvent where
  conid := 7
  underlyingConid := 3
  optionPrice := 1
  size := 2
  premium := 200
  direction := "STO"
  timestamp := 0
  isAutoTrade := false

/-- Concrete `LIVE_QUOTE` for conid 100 (no trade of this conid exists in
the C9 witness state). -/
def qC9 : Quote where
  conid := 100
  last := some 4

/-- C9: a `LIVE_QUOTE` leaves the print ledger untouched, preserves the
length (hence relative order: the record at each index stays the update of
the record that was there) of the trade and auto-trade ledgers, leaves
every record of a different conid completely unchanged, and changes even
matching records only in `currentPrice`, `priceChange`, `priceChangePct` —
all other fields are unchanged. -/
theorem liveQuote_frame (now : ℚ) (q : Quote) (s : ClientState) :
    (processMsg now (Msg.liveQuote q) s).prints = s.prints ∧
    (processMsg now (Msg.liveQuote q) s).trades.length = s.trades.length ∧
    (processMsg now (Msg.liveQuote q) s).autoTrades.length = s.autoTrades.length ∧
    (∀ (i : Nat) (hi : i < s.trades.length)
        (h2 : i < (processMsg now (Msg.liveQuote q) s).trades.length),
      ((s.trades.get ⟨i, hi⟩).conid ≠ q.conid →
        (processMsg now (Msg.liveQuote q) s).trades.get ⟨i, h2⟩ = s.trades.get ⟨i, hi⟩) ∧
      ((processMsg now (Msg.liveQuote q) s).trades.get ⟨i, h2⟩).conid
          = (s.trades.get ⟨i, hi⟩).conid ∧
      ((processMsg now (Msg.liveQuote q) s).trades.get ⟨i, h2⟩).underlyingConid
          = (s.trades.get ⟨i, hi⟩).underlyingConid ∧
      ((processMsg now (Msg.liveQuote q) s).trades.get ⟨i, h2⟩).optionPrice
          = (s.trades.get ⟨i, hi⟩).optionPrice ∧
      ((processMsg now (Msg.liveQuote q) s).trades.get ⟨i, h2⟩).size
          = (s.trades.get ⟨i, hi⟩).size ∧
      ((processMsg now (Msg.liveQuote q) s).trades.get ⟨i, h2⟩).premium
          = (s.trades.get ⟨i, hi⟩).premium ∧
      ((processMsg now (Msg.liveQuote q) s).trades.get ⟨i, h2⟩).direction
          = (s.trades.get ⟨i, hi⟩).direction ∧
      ((processMsg now (Msg.liveQuote q) s).trades.get ⟨i, h2⟩).timestamp
          = (s.trades.get ⟨i, hi⟩).timestamp ∧
      ((processMsg now (Msg.liveQuote q) s).trades.get ⟨i, h2⟩).isAutoTrade
          = (s.trades.get ⟨i, hi⟩).isAutoTrade ∧
      ((processMsg now (Msg.liveQuote q) s).trades.get ⟨i, h2⟩).receivedAt
          = (s.trades.get ⟨i, hi⟩).receivedAt ∧
      ((processMsg now (Msg.liveQuote q) s).trades.get ⟨i, h2⟩).initialPrice
          = (s.trades.get ⟨i, hi⟩).initialPrice) ∧
    (∀ (i : Nat) (hi : i < s.autoTrades.length)
        (h2 : i < (processMsg now (Msg.liveQuote q) s).autoTrades.length),
      ((s.autoTrades.get ⟨i, hi⟩).conid ≠ q.conid →
        (processMsg now (Msg.liveQuote q) s).autoTrades.get ⟨i, h2⟩ = s.autoTrades.get ⟨i, hi⟩) ∧
      ((processMsg now (Msg.liveQuote q) s).autoTrades.get ⟨i, h2⟩).conid
          = (s.autoTrades.get ⟨i, hi⟩).conid ∧
      ((processMsg now (Msg.liveQuote q) s).autoTrades.get ⟨i, h2⟩).underlyingConid
          = (s.autoTrades.get ⟨i, hi⟩).underlyingConid ∧
      ((processMsg now (Msg.liveQuote q) s).autoTrades.get ⟨i, h2⟩).optionPrice
          = (s.autoTrades.get ⟨i, hi⟩).optionPrice ∧
      ((processMsg now (Msg.liveQuote q) s).autoTrades.get ⟨i, h2⟩).size
          = (s.autoTrades.get ⟨i, hi⟩).size ∧
      ((processMsg now (Msg.liveQuote q) s).autoTrades.get ⟨i, h2⟩).premium
          = (s.autoTrades.get ⟨i, hi⟩).premium ∧
      ((processMsg now (Msg.liveQuote q) s).autoTrades.get ⟨i, h2⟩).direction
          = (s.autoTrades.get ⟨i, hi⟩).direction ∧
      ((processMsg now (Msg.liveQuote q) s).autoTrades.get ⟨i, h2⟩).timestamp
          = (s.autoTrades.get ⟨i, hi⟩).timestamp ∧
      ((processMsg now (Msg.liveQuote q) s).autoTrades.get ⟨i, h2⟩).isAutoTrade
          = (s.autoTrades.get ⟨i, hi⟩).isAutoTrade ∧
      ((processMsg now (Msg.liveQuote q) s).autoTrades.get ⟨i, h2⟩).receivedAt
          = (s.autoTrades.get ⟨i, hi⟩).receivedAt ∧
      ((processMsg now (Msg.liveQuote q) s).autoTrades.get ⟨i, h2⟩).initialPrice
          = (s.autoTrades.get ⟨i, hi⟩).initialPrice) := by
  refine ⟨rfl, by simp [processMsg], by simp [processMsg], ?_, ?_⟩
  · intro i hi h2
    have hget : (processMsg now (Msg.liveQuote q) s).trades.get ⟨i, h2⟩
        = updateTrade q (s.trades.get ⟨i, hi⟩) := by
      simp [processMsg]
    rw [hget]
    exact ⟨fun hne => updateTrade_nonmatch q _ hne, updateTrade_frame q _⟩
  · intro i hi h2
    have hget : (processMsg now (Msg.liveQuote q) s).autoTrades.get ⟨i, h2⟩
        = updateTrade q (s.autoTrades.get ⟨i, hi⟩) := by
      simp [processMsg]
    rw [hget]
    exact ⟨fun hne => updateTrade_nonmatch q _ hne, updateTrade_frame q _⟩

/-- Witness for C9: a quote for conid 100 leaves the single trade of conid
7 (and the empty print ledger) exactly as they were. -/
theorem liveQuote_frame_witness :
    (processMsg 1 (Msg.liveQuote qC9) (processMsg 0 (Msg.call eC9) initState)).prints
      = (processMsg 0 (Msg.call eC9) initState).prints ∧
    (processMsg 1 (Msg.liveQuote qC9) (processMsg 0 (Msg.call eC9) initState)).trades.get
        ⟨0, by decide⟩
      = (processMsg 0 (Msg.call eC9) initState).trades.get ⟨0, by decide⟩ := by
  have h := liveQuote_frame 1 qC9 (processMsg 0 (Msg.call eC9) initState)
  exact ⟨h.1, (h.2.2.2.1 0 (by decide) (by decide)).1 (by decide)⟩

/-- C10: enrichment is idempotent — processing the same option quote twice
in a row leaves every trade-ledger and auto-trade-ledger record (in
particular its `currentPrice`, `priceChange` and `priceChangePct`) exactly
as processing it once does. -/
theorem enrichment_idem (n1 n2 : ℚ) (q : Quote) (s : ClientState) :
    (processMsg n2 (Msg.liveQuote q) (processMsg n1 (Msg.liveQuote q) s)).trades
      = (processMsg n1 (Msg.liveQuote q) s).trades ∧
    (processMsg n2 (Msg.liveQuote q) (processMsg n1 (Msg.liveQuote q) s)).autoTrades
      = (processMsg n1 (Msg.liveQuote q) s).autoTrades := by
  constructor <;>
  · show List.map (updateTrade q) (List.map (updateTrade q) _) = _
    rw [List.map_map]
    exact List.map_congr_left fun t _ => updateTrade_idem q t

/-- The trace exhibiting the teardown behaviour: the component mounts and
connects, the connection opens, the owning session ends (the effect
cleanup calls `ws.close()`), the resulting close event fires `ws.onclose`,
and the timer it scheduled fires 3 seconds later. -/
def teardownTrace : List ConnEvent :=
  [ConnEvent.mount, ConnEvent.openEvt, ConnEvent.teardown,
   ConnEvent.closeEvt, ConnEvent.timerFire]

/-- C4 (evaluation at the failing input): tearing the session down while a
connection is open does NOT prevent reconnection.  The cleanup closes the
socket, but the close handler — which holds no cancellation flag, and for
whose `setTimeout` no handle is ever kept (the source has no
`clearTimeout`) — schedules a reconnection timer anyway, and when it fires
a second connection attempt is made after teardown.  This contradicts the
claim that teardown cancels any pending scheduled reconnection and that no
reconnection attempt ever occurs after teardown. -/
theorem reconnect_after_teardown :
    (List.foldl connStep connInit teardownTrace).tornDown = true ∧
    (List.foldl connStep connInit (List.take 4 teardownTrace)).pendingTimers
      = [reconnectDelayMs] ∧
    (List.foldl connStep connInit teardownTrace).connectCount = 2 := by
  decide

/-- C5 counterexample: an error event alone schedules no reconnection
attempt — `ws.onerror` only clears the `connected` flag — so the claim
that every error schedules exactly one reconnection attempt is false. -/
theorem error_schedules_no_reconnect :
    connInit.pendingTimers = [] ∧
    (connStep connInit ConnEvent.errorEvt).connected = false ∧
    (connStep connInit ConnEvent.errorEvt).pendingTimers = [] := by
  decide

/-- C5 (amended): on every close event — graceful or abnormal — the
manager marks the session disconnected and schedules exactly one
reconnection attempt with the fixed 3000 ms delay, regardless of how many
reconnections have already happened (no retry limit) and with no duplicate
timer per close event; on an error event it only marks the session
disconnected and schedules nothing itself (the reconnection for an errored
connection is scheduled by the close event that follows it). -/
theorem close_marks_and_schedules (s : ConnState) :
    (connStep s ConnEvent.closeEvt).connected = false ∧
    (connStep s ConnEvent.closeEvt).pendingTimers
      = s.pendingTimers ++ [reconnectDelayMs] ∧
    reconnectDelayMs = 3000 ∧
    (connStep s ConnEvent.errorEvt).connected = false ∧
    (connStep s ConnEvent.errorEvt).pendingTimers = s.pendingTimers :=
  ⟨rfl, rfl, rfl, rfl, rfl⟩
